import Mathlib

/-!
Verification of the rotating, self-compressing log file writer
(`pkg/logging/api.go`).  The Go code is shallowly embedded: the file-system
and clock are passed in as explicit environment values describing the
outcome of each system call (an `Option GoError`, where `none` means the
call succeeded), pure helpers (`path.Clean`, `path.Join`, `filepath.Dir`,
`filepath.Base`, `filepath.Ext`, the archive-name formatter) are translated
to executable Lean functions, and the writer's mutable fields become a
state record threaded through each operation.
-/

/-- Errors returned by the embedded system calls.  `errClosed` stands for
Go's `os.ErrClosed` (also returned by `(*os.File).Close`/`Write` on an
already-closed handle), `errInvalid` for `os.ErrInvalid` (nil `*os.File`
receiver), and `ioError` for any other I/O failure. -/
inductive GoError where
  | errClosed
  | errInvalid
  | ioError (msg : String)
deriving Repr, DecidableEq

/-- Result of a Go computation that can panic (`rotate` panics when the
active handle is nil). -/
inductive GoRes (α : Type) where
  | ok (a : α)
  | fatal (msg : String)
deriving Repr, DecidableEq

/- ### Go `path` / `path/filepath` string helpers (Unix separator) -/

/-- One step of the backtracking loop of Go's `path.Clean`: starting from
index `w`, decrement while `w > dotdot` and the buffer character at `w` is
not `'/'` (this is the `out.w--` loop of the `..` case). -/
def backIdx (out : List Char) (dotdot : Nat) : Nat → Nat
  | 0 => 0
  | w + 1 =>
    if decide (dotdot < w + 1) && (out.getD (w + 1) ' ' != '/') then
      backIdx out dotdot w
    else
      w + 1

/-- Discard the last path element of the output buffer, as Go's
`path.Clean` does when it meets a `..` element and `out.w > dotdot`. -/
def cleanBack (out : List Char) (dotdot : Nat) : List Char :=
  out.take (backIdx out dotdot (out.length - 1))

/-- `true` when the remaining input starts a new element boundary
(`r+1 == n || path[r+1] == '/'` in the Go source). -/
def isSegEnd : List Char → Bool
  | [] => true
  | c :: _ => c == '/'

/-- `true` when the remaining input spells a `..` element boundary. -/
def isDotDotSeg : List Char → Bool
  | '.' :: r => isSegEnd r
  | _ => false

/-- Take the characters of the current path element (up to the next `/`),
mirroring the inner copy loop of the default case of `path.Clean`. -/
def takeElem : List Char → List Char × List Char
  | [] => ([], [])
  | c :: rest =>
    if c == '/' then ([], c :: rest)
    else
      let p := takeElem rest
      (c :: p.1, p.2)

/-- The main loop of Go's `path.Clean`.  `out` is the output buffer,
`dotdot` the index below which `..` may not backtrack; the `Nat` fuel
bounds the number of iterations (one unit per loop entry, and the loop
consumes at least one input character per entry, so fuel equal to the
input length suffices). -/
def cleanCore (rooted : Bool) : Nat → List Char → Nat → List Char → List Char
  | _, out, _, [] => out
  | 0, out, _, _ :: _ => out
  | fuel + 1, out, dotdot, c :: rest =>
    if c == '/' then
      cleanCore rooted fuel out dotdot rest
    else if c == '.' && isSegEnd rest then
      cleanCore rooted fuel out dotdot rest
    else if c == '.' && isDotDotSeg rest then
      let r2 := rest.tail
      if dotdot < out.length then
        cleanCore rooted fuel (cleanBack out dotdot) dotdot r2
      else if !rooted then
        let out2 := (if out.length > 0 then out ++ ['/'] else out) ++ ['.', '.']
        cleanCore rooted fuel out2 out2.length r2
      else
        cleanCore rooted fuel out dotdot r2
    else
      let out2 :=
        if (rooted && out.length != 1) || (!rooted && out.length != 0) then
          out ++ ['/']
        else out
      let p := takeElem (c :: rest)
      cleanCore rooted fuel (out2 ++ p.1) dotdot p.2

/-- Go `path.Clean`. -/
def goPathClean (p : String) : String :=
  match p.data with
  | [] => "."
  | c :: rest =>
    let rooted := c == '/'
    let res :=
      if rooted then cleanCore true p.data.length ['/'] 1 rest
      else cleanCore false p.data.length [] 0 (c :: rest)
    if res.isEmpty then "." else String.mk res

/-- Go `path.Join` restricted to two elements (`filepath.Join` coincides
with it on Unix): empty elements are dropped and the result is `Clean`ed;
if every element is empty the result is the empty string. -/
def goPathJoin (a b : String) : String :=
  if a = "" && b = "" then ""
  else if a = "" then goPathClean b
  else if b = "" then goPathClean a
  else goPathClean (a ++ "/" ++ b)

/-- Scanner of Go `filepath.Ext`: walk the path from the end (the input
here is the reversed path, `acc` holds the characters already passed, in
original order); stop at the first `.`, give up at a separator. -/
def extScan : List Char → List Char → List Char
  | _, [] => []
  | acc, c :: rest =>
    if c == '/' then []
    else if c == '.' then c :: acc
    else extScan (c :: acc) rest

/-- Go `filepath.Ext`: the suffix beginning at the final dot of the final
path element; empty when there is no dot. -/
def goFilepathExt (p : String) : String :=
  String.mk (extScan [] p.data.reverse)

/-- Go `filepath.Base`: the last element of the path, after discarding
trailing separators; `"."` for the empty path, `"/"` when the path
consists entirely of separators. -/
def goFilepathBase (p : String) : String :=
  match p.data with
  | [] => "."
  | _ =>
    let stripped := p.data.reverse.dropWhile (fun c => c == '/')
    if stripped.isEmpty then "/"
    else String.mk (stripped.takeWhile (fun c => c != '/')).reverse

/-- Go `filepath.Dir`: everything up to (and including) the final
separator, `Clean`ed. -/
def goFilepathDir (p : String) : String :=
  goPathClean (String.mk (p.data.reverse.dropWhile (fun c => c != '/')).reverse)

/- ### Constants of `pkg/logging/api.go` -/

def minLogFileSizeBytes : Int := 100000
def maxLogFileSizeBytesConst : Int := 9223372036854775807
def defaultLogFileSizeBytes : Int := 1000000
def defaultLogDirName : String := "./log"
def defaultLogFileName : String := "log.log"
def archiveNameFormat : String := "2006-01-02T15-04-05.00000"
def compressedExtension : String := "gz"
def processingExtenstion : String := "processing"

/- ### Archive-name formatting -/

/-- A wall-clock instant as the fields that the archive timestamp layout
`2006-01-02T15-04-05.00000` prints; `frac` is the fractional second in
units of 10^-5 s (five digits). -/
structure GoTime where
  year : Nat
  month : Nat
  day : Nat
  hour : Nat
  minute : Nat
  second : Nat
  frac : Nat
deriving Repr, DecidableEq

/-- The fields are representable in the fixed-width layout. -/
def GoTime.wf (t : GoTime) : Prop :=
  t.year < 10 ^ 4 ∧ t.month < 10 ^ 2 ∧ t.day < 10 ^ 2 ∧ t.hour < 10 ^ 2 ∧
    t.minute < 10 ^ 2 ∧ t.second < 10 ^ 2 ∧ t.frac < 10 ^ 5

instance (t : GoTime) : Decidable t.wf :=
  inferInstanceAs (Decidable (_ ∧ _ ∧ _ ∧ _ ∧ _ ∧ _ ∧ _))

/-- Zero-padded fixed-width decimal rendering, most significant digit
first (what Go's reference-time layouts `2006`, `01`, …, `00000` print). -/
def padNum : Nat → Nat → List Char
  | 0, _ => []
  | w + 1, n => Nat.digitChar (n / 10 ^ w) :: padNum w (n % 10 ^ w)

/-- The characters `time.Now().Format("2006-01-02T15-04-05.00000")`
produces for instant `t`. -/
def goFormatChars (t : GoTime) : List Char :=
  padNum 4 t.year ++ '-' :: padNum 2 t.month ++ '-' :: padNum 2 t.day ++
    'T' :: padNum 2 t.hour ++ '-' :: padNum 2 t.minute ++
    '-' :: padNum 2 t.second ++ '.' :: padNum 5 t.frac

/-- String form of the formatted archive timestamp. -/
def goFormatTimestamp (t : GoTime) : String :=
  String.mk (goFormatChars t)

/-- `archiveName` of the source, with the formatted `time.Now()` value
passed explicitly: inserts `-<timestamp>` between the base name and its
extension. -/
def archiveNameAt (current : String) (now : String) : String :=
  let dir := goFilepathDir current
  let filename := goFilepathBase current
  let ext := goFilepathExt current
  let stem := filename.take (filename.length - ext.length)
  goPathJoin dir (stem ++ "-" ++ now ++ ext)

/-- Boolean lexicographic (byte-wise) strict order on character lists; the
order file names sort in. -/
def lexLt : List Char → List Char → Bool
  | [], [] => false
  | [], _ :: _ => true
  | _ :: _, [] => false
  | a :: as, b :: bs => decide (a < b) || (a == b && lexLt as bs)

/-- Chronological strict order on timestamp fields. -/
def tsLtB (a b : GoTime) : Bool :=
  decide (a.year < b.year) || (a.year == b.year &&
  (decide (a.month < b.month) || (a.month == b.month &&
  (decide (a.day < b.day) || (a.day == b.day &&
  (decide (a.hour < b.hour) || (a.hour == b.hour &&
  (decide (a.minute < b.minute) || (a.minute == b.minute &&
  (decide (a.second < b.second) || (a.second == b.second &&
  decide (a.frac < b.frac))))))))))))

/- ### The `FileWriter` state machine -/

/-- Configuration (`FileWriterConfig` of the source).  `MaxTimeTimeToKeep`
is a `time.Duration` in nanoseconds. -/
structure FileWriterConfig where
  LogDirName : String := ""
  LogFileName : String := ""
  Compress : Bool := false
  MaxTimeTimeToKeep : Int := 0
  MaxLogFileSizeBytes : Int := 0
deriving Repr, DecidableEq

/-- State of the `*os.File` handle held in `w.logFile`:  the pointer can
be nil (before `initialize` assigns it, or after a failed reopen), or
point to an open or an already-closed file. -/
inductive HandleState where
  | opened
  | closedH
deriving Repr, DecidableEq

/-- The writer state.  `activeFile` is the content of the file at
`logFileNameFullPath` (`none` when no such file exists), `archivedFiles`
the other files of the log directory the writer created by renaming, and
`wgCount` / `pendingCompress` the `compressorWG` counter together with the
set of background compression tasks spawned and not yet waited for. -/
structure FileWriter where
  closed : Bool
  config : FileWriterConfig
  logFileNameFullPath : String
  byteCounter : Int
  logFile : Option HandleState
  activeFile : Option (List Nat)
  archivedFiles : List (String × List Nat)
  wgCount : Int
  pendingCompress : List String
deriving Repr, DecidableEq

/-- Outcomes of the system calls one `rotate` performs.  `now` is the
already-formatted `time.Now()` used by `archiveName`. -/
structure RotateEnv where
  closeErr : Option GoError
  mkdirErr : Option GoError
  renameErr : Option GoError
  openErr : Option GoError
  now : String
deriving Repr, DecidableEq

/-- Outcomes of the system calls one `Write` performs: the pair returned
by `w.logFile.Write(msg)` and, should rotation trigger, the rotation
outcomes. -/
structure WriteEnv where
  appendN : Nat
  appendErr : Option GoError
  rot : RotateEnv
deriving Repr, DecidableEq

/-- `w.logFile.Write(msg)`: a nil handle reports `os.ErrInvalid`, a closed
one `os.ErrClosed`; an open handle appends the `n` bytes the OS accepted
(first `n` bytes of `msg`) and reports the OS outcome. -/
def FileWriter.fileWrite (w : FileWriter) (msg : List Nat) (n : Nat)
    (appendErr : Option GoError) : Nat × Option GoError × FileWriter :=
  match w.logFile with
  | none => (0, some .errInvalid, w)
  | some .closedH => (0, some .errClosed, w)
  | some .opened =>
    (n, appendErr,
      { w with activeFile := some (w.activeFile.getD [] ++ msg.take n) })

/-- `archive` of the source: rename the active file to its timestamped
archive name; on success, when compression is enabled, add one unit to the
wait group and spawn `compress` on the archived path. -/
def FileWriter.archive (w : FileWriter) (renameErr : Option GoError)
    (now : String) : FileWriter × Option GoError :=
  let newName := archiveNameAt w.logFileNameFullPath now
  match renameErr with
  | some e => (w, some e)
  | none =>
    let w := { w with
      activeFile := none,
      archivedFiles := (newName, w.activeFile.getD []) :: w.archivedFiles }
    if w.config.Compress then
      ({ w with
          wgCount := w.wgCount + 1,
          pendingCompress := newName :: w.pendingCompress }, none)
    else (w, none)

/-- `rotate` of the source: close the active handle (panicking when it is
nil), re-ensure the directory, call `archive` — whose error the source
discards — reopen the active path for append, and zero the byte counter.
A failed reopen leaves `w.logFile` nil. -/
def FileWriter.rotate (w : FileWriter) (env : RotateEnv) :
    GoRes (FileWriter × Option GoError) :=
  match w.logFile with
  | none => .fatal "logging inconsistency: logFile was nil"
  | some h =>
    let p :
        Option GoError × FileWriter :=
      match h with
      | .closedH => (some .errClosed, w)
      | .opened => (env.closeErr, { w with logFile := some .closedH })
    match p with
    | (some e, w) => .ok (w, some e)
    | (none, w) =>
      match env.mkdirErr with
      | some e => .ok (w, some e)
      | none =>
        let q := w.archive env.renameErr env.now
        let w := q.1
        match env.openErr with
        | some e => .ok ({ w with logFile := none }, some e)
        | none =>
          .ok ({ w with
                  logFile := some .opened,
                  activeFile := some (w.activeFile.getD []),
                  byteCounter := 0 }, none)

/-- `Write` of the source: reject when the closed flag was ever stored;
append; add the reported count to the byte counter; when the counter now
exceeds the configured maximum, rotate — discarding the rotation error —
and return the append's count and error. -/
def FileWriter.write (w : FileWriter) (msg : List Nat) (env : WriteEnv) :
    GoRes (Nat × Option GoError × FileWriter) :=
  if w.closed then .ok (0, some .errClosed, w)
  else
    let r := w.fileWrite msg env.appendN env.appendErr
    let n := r.1
    let err := r.2.1
    let w : FileWriter := { r.2.2 with byteCounter := r.2.2.byteCounter + (n : Int) }
    if w.byteCounter > w.config.MaxLogFileSizeBytes then
      match w.rotate env.rot with
      | .fatal m => .fatal m
      | .ok (w, _rotErr) => .ok (n, err, w)
    else .ok (n, err, w)

/-- `Close` of the source: store the closed flag, wait for every pending
background compression (the in-flight set drains), then close the file
handle, returning that close's error. -/
def FileWriter.close (w : FileWriter) (closeErr : Option GoError) :
    FileWriter × Option GoError :=
  let w := { w with closed := true, wgCount := 0, pendingCompress := [] }
  match w.logFile with
  | none => (w, some .errInvalid)
  | some .closedH => (w, some .errClosed)
  | some .opened => ({ w with logFile := some .closedH }, closeErr)

/- ### The construction-time retention sweep (`cleanup`) -/

/-- One directory entry as `cleanup` observes it: its name, whether the
`Info()` call failed, its age (`time.Since(info.ModTime())`, nanoseconds)
and the outcome of the `os.Remove` that the age rule may attempt. -/
structure DirEnt where
  name : String
  infoErr : Bool
  age : Int
  removeErr : Option GoError
deriving Repr, DecidableEq

/-- Go `strings.HasSuffix`. -/
def goHasSuffix (s suffix : String) : Bool :=
  List.isSuffixOf suffix.data s.data

/-- The age rule of `cleanup`: delete when a retention duration is
configured and the entry is older. -/
def shouldDelete (cfg : FileWriterConfig) (e : DirEnt) : Bool :=
  decide (cfg.MaxTimeTimeToKeep > 0) && decide (e.age > cfg.MaxTimeTimeToKeep)

/-- The entry loop of `cleanup`: returns the full paths the age rule
removed and the full paths scheduled for background compression, in entry
order.  Note the source checks the literal suffix `"log"` and does not
consult `cfg.Compress`. -/
def cleanupEnts (cfg : FileWriterConfig) : List DirEnt → List String × List String
  | [] => ([], [])
  | e :: rest =>
    if e.infoErr then cleanupEnts cfg rest
    else
      let fullPath := goPathJoin cfg.LogDirName e.name
      if shouldDelete cfg e then
        let p := cleanupEnts cfg rest
        (fullPath :: p.1, p.2)
      else if goHasSuffix e.name "log" && e.name != cfg.LogFileName then
        let p := cleanupEnts cfg rest
        (p.1, fullPath :: p.2)
      else cleanupEnts cfg rest

/-- Outcome of the `os.ReadDir` call of `cleanup` plus the entries it
listed. -/
structure CleanupEnv where
  readDirErr : Option GoError
  dirents : List DirEnt
deriving Repr, DecidableEq

/-- `cleanup` of the source: list the directory (propagating a listing
failure), apply the age rule and schedule compression backlog; returns
(deleted paths, compression-scheduled paths, error). -/
def cleanupRun (cfg : FileWriterConfig) (env : CleanupEnv) :
    List String × List String × Option GoError :=
  match env.readDirErr with
  | some e => ([], [], some e)
  | none =>
    let p := cleanupEnts cfg env.dirents
    (p.1, p.2, none)

/- ### `initialize` and `NewFileWriter` -/

/-- Outcomes of the system calls `initialize` performs.  `statSize` is
`some size` exactly when `os.Stat` on the active path succeeded. -/
structure InitEnv where
  mkdirErr : Option GoError
  cleanupEnv : CleanupEnv
  statSize : Option Int
  renameErr : Option GoError
  now : String
  openErr : Option GoError
deriving Repr, DecidableEq

/-- The final `os.OpenFile(..., O_APPEND|O_WRONLY|O_CREATE, ...)` of
`initialize` (and of `rotate`): creates the file when absent, else keeps
its content for appending; a failure leaves `w.logFile` nil. -/
def finishOpen (w : FileWriter) (openErr : Option GoError) :
    FileWriter × Option GoError :=
  match openErr with
  | some e => ({ w with logFile := none }, some e)
  | none =>
    ({ w with
        logFile := some .opened,
        activeFile := some (w.activeFile.getD []) }, none)

/-- `initialize` of the source: ensure the directory, run `cleanup`
(accumulating its spawned compression tasks), stat the active path —
archiving it when oversized, else seeding the byte counter with its size —
and open the active file for append. -/
def initWriter (w : FileWriter) (env : InitEnv) : FileWriter × Option GoError :=
  match env.mkdirErr with
  | some e => (w, some e)
  | none =>
    let c := cleanupRun w.config env.cleanupEnv
    let w : FileWriter := { w with
      wgCount := w.wgCount + c.2.1.length,
      pendingCompress := c.2.1 ++ w.pendingCompress }
    match c.2.2 with
    | some e => (w, some e)
    | none =>
      match env.statSize with
      | some size =>
        if size ≥ w.config.MaxLogFileSizeBytes then
          match w.archive env.renameErr env.now with
          | (w', some e) => (w', some e)
          | (w', none) => finishOpen w' env.openErr
        else finishOpen { w with byteCounter := size } env.openErr
      | none => finishOpen w env.openErr

/-- The defaulting prologue of `NewFileWriter`: a zero maximum size, an
empty directory name and an empty file name are replaced with their
documented defaults. -/
def applyDefaults (c : FileWriterConfig) : FileWriterConfig :=
  let c := if c.MaxLogFileSizeBytes = 0 then
      { c with MaxLogFileSizeBytes := defaultLogFileSizeBytes } else c
  let c := if c.LogDirName = "" then
      { c with LogDirName := defaultLogDirName } else c
  if c.LogFileName = "" then
      { c with LogFileName := defaultLogFileName } else c

/-- The `FileWriter{...}` literal `NewFileWriter` builds before calling
`initialize`; `active0` is the pre-existing content of the active path,
if any. -/
def initialWriterState (c : FileWriterConfig) (active0 : Option (List Nat)) :
    FileWriter := {
  closed := false
  config := c
  logFileNameFullPath := goPathJoin c.LogDirName c.LogFileName
  byteCounter := 0
  logFile := none
  activeFile := active0
  archivedFiles := []
  wgCount := 0
  pendingCompress := [] }

/-- `NewFileWriter` of the source: apply the documented defaults to the
configuration, build the writer with the joined active path, and run
`initialize` — whose failure is fatal (`lg.Fatalw` aborts the process,
modelled as `none`). -/
def NewFileWriter (c : FileWriterConfig) (active0 : Option (List Nat))
    (env : InitEnv) : Option FileWriter :=
  match initWriter (initialWriterState (applyDefaults c) active0) env with
  | (_, some _) => none
  | (w, none) => some w

/- ### The background compressor -/

/-- A directory's files, by name (contents do not matter to the claims
about `compress`, which only create, rename and delete whole files). -/
abbrev GoFS := List String

/-- `os.OpenFile(..., O_CREATE|O_TRUNC|O_WRONLY, ...)`: ensure the file
exists. -/
def fsCreate (fs : GoFS) (n : String) : GoFS :=
  if n ∈ fs then fs else n :: fs

/-- `os.Remove`. -/
def fsRemove (fs : GoFS) (n : String) : GoFS := fs.erase n

/-- `os.Rename a b` (overwrites `b` when present). -/
def fsRename (fs : GoFS) (a b : String) : GoFS := fsCreate (fsRemove fs a) b

/-- The compressed artifact's name (`fn + "." + compressedExtension`). -/
def compressedName (fn : String) : String :=
  fn ++ "." ++ compressedExtension

/-- The in-progress output's name
(`compressedFilename + "." + processingExtenstion`). -/
def tempName (fn : String) : String :=
  compressedName fn ++ "." ++ processingExtenstion

/-- Outcomes of the system calls one `compress` performs.  `removeTempErr`
is the outcome of the `os.Remove(tempFilename)` attempted after a copy
failure, `removeOrigErr` that of the final `os.Remove(fn)`. -/
structure CompressEnv where
  openErr : Option GoError
  tempOpenErr : Option GoError
  copyErr : Option GoError
  renameErr : Option GoError
  removeTempErr : Option GoError
  removeOrigErr : Option GoError
deriving Repr, DecidableEq

/-- `compress` of the source, as a file-system transformer.  Mirrors the
control flow exactly: open input (failure: no change); open the temporary
output (failure: no change; success creates it); stream (failure: remove
the temporary output and stop); rename the temporary output to the final
compressed name (failure merely logged); remove the original (failure
merely logged) — note the source performs the remove even when the rename
failed. -/
def compressRun (fs : GoFS) (fn : String) (env : CompressEnv) : GoFS :=
  if env.openErr.isSome then fs
  else if env.tempOpenErr.isSome then fs
  else
    let fs := fsCreate fs (tempName fn)
    if env.copyErr.isSome then
      if env.removeTempErr.isSome then fs else fsRemove fs (tempName fn)
    else
      let fs := if env.renameErr.isSome then fs
        else fsRename fs (tempName fn) (compressedName fn)
      if env.removeOrigErr.isSome then fs else fsRemove fs fn

/- ### Helper lemmas on the write path -/

/-- `rotate` cannot panic when the handle pointer is non-nil. -/
theorem rotate_no_fatal (w : FileWriter) (hs : HandleState)
    (h : w.logFile = some hs) (env : RotateEnv) :
    ∃ p, w.rotate env = GoRes.ok p := by
  cases hs <;>
    rcases h1 : env.closeErr with _ | e1 <;>
    rcases h2 : env.mkdirErr with _ | e2 <;>
    rcases h3 : env.openErr with _ | e3 <;>
    simp [FileWriter.rotate, h, h1, h2, h3]

/-- A successful `Close` on an open handle, in closed form. -/
theorem close_opened (w : FileWriter) (e : Option GoError)
    (h : w.logFile = some HandleState.opened) :
    w.close e =
      ({ w with closed := true, wgCount := 0, pendingCompress := [],
                logFile := some HandleState.closedH }, e) := by
  simp [FileWriter.close, h]

/-- Claim C4: after `close` has been called, every subsequent `write`
call fails with the closed-writer error (`os.ErrClosed`), reports zero
bytes, and leaves the writer — in particular every file content — exactly
unchanged. -/
theorem claim_C4_write_after_close (w : FileWriter) (cerr : Option GoError)
    (msg : List Nat) (env : WriteEnv) :
    ((w.close cerr).1).closed = true ∧
    (w.close cerr).1.write msg env =
      GoRes.ok (0, some GoError.errClosed, (w.close cerr).1) := by
  have hclosed : ((w.close cerr).1).closed = true := by
    unfold FileWriter.close
    rcases w.logFile with _ | h
    · rfl
    · cases h <;> rfl
  exact ⟨hclosed, by simp [FileWriter.write, hclosed]⟩

/-- Claim C9: a second `Close` does not panic (it is a total transition in
this model, and the underlying Go calls — a second `atomic.Value.Store` of
the same type, `WaitGroup.Wait` with a drained counter, and
`(*os.File).Close` on a closed file — do not panic) and does not change
the writer's state at all; it reports the already-closed condition
(`os.ErrClosed`) as its error. -/
theorem claim_C9_double_close (w : FileWriter) (e1 e2 : Option GoError)
    (h : w.logFile = some HandleState.opened) :
    w.close e1 =
      ({ w with closed := true, wgCount := 0, pendingCompress := [],
                logFile := some HandleState.closedH }, e1) ∧
    ((w.close e1).1).close e2 = ((w.close e1).1, some GoError.errClosed) := by
  refine ⟨close_opened w e1 h, ?_⟩
  rw [close_opened w e1 h]
  simp [FileWriter.close]

/-- Concrete writer used to instantiate the double-close theorem. -/
def witWriter9 : FileWriter := {
  closed := false
  config := {}
  logFileNameFullPath := "log/log.log"
  byteCounter := 0
  logFile := some .opened
  activeFile := some []
  archivedFiles := []
  wgCount := 0
  pendingCompress := [] }

/-- Witness for C9 at a concrete writer. -/
theorem claim_C9_witness :
    witWriter9.logFile = some HandleState.opened ∧
    ((witWriter9.close none).1).close none =
      ((witWriter9.close none).1, some GoError.errClosed) :=
  ⟨rfl, (claim_C9_double_close witWriter9 none none rfl).2⟩

/- ### Claim C1: rotation failure and the value `Write` returns -/

/-- A writer two bytes below its ten-byte threshold. -/
def cexWriter1 : FileWriter := {
  closed := false
  config := { LogDirName := "d", LogFileName := "f.log", Compress := false,
              MaxTimeTimeToKeep := 0, MaxLogFileSizeBytes := 10 }
  logFileNameFullPath := "d/f.log"
  byteCounter := 8
  logFile := some .opened
  activeFile := some [1, 2, 3]
  archivedFiles := []
  wgCount := 0
  pendingCompress := [] }

/-- Rotation outcomes in which the directory re-creation fails, making
`rotate` fail. -/
def cexRot1 : RotateEnv :=
  { closeErr := none, mkdirErr := some (.ioError "mkdir failed"),
    renameErr := none, openErr := none, now := "TS" }

/-- Write outcomes: the append itself succeeds with all five bytes. -/
def cexEnv1 : WriteEnv := { appendN := 5, appendErr := none, rot := cexRot1 }

/-- The state after the successful five-byte append, before rotation. -/
def cexMid1 : FileWriter :=
  { cexWriter1 with byteCounter := 13, activeFile := some [1, 2, 3, 9, 9, 9, 9, 9] }

/-- Counterexample to claim C1: this write triggers a rotation and that
rotation fails (second conjunct: `rotate` on the appended state returns
the mkdir error), yet the write call returns `none` as its error — the
append's error — not the rotation failure, which the source discards. -/
theorem claim_C1_counterexample :
    cexWriter1.write [9, 9, 9, 9, 9] cexEnv1 =
      GoRes.ok (5, none, { cexMid1 with logFile := some HandleState.closedH }) ∧
    cexMid1.rotate cexRot1 =
      GoRes.ok ({ cexMid1 with logFile := some HandleState.closedH },
        some (GoError.ioError "mkdir failed")) :=
  ⟨by decide, by decide⟩

/-- Claim C1 as amended: for every write on a non-closed writer with an
open handle, the call returns exactly the append's byte count and the
append's error — the byte count reflecting what reached the active file is
preserved, but a rotation failure is discarded rather than returned. -/
theorem claim_C1_amended (w : FileWriter) (msg : List Nat) (env : WriteEnv)
    (hcl : w.closed = false) (hlf : w.logFile = some HandleState.opened) :
    ∃ w', w.write msg env = GoRes.ok (env.appendN, env.appendErr, w') := by
  rcases h1 : env.rot.closeErr with _ | e1 <;>
    rcases h2 : env.rot.mkdirErr with _ | e2 <;>
    rcases h3 : env.rot.openErr with _ | e3 <;>
    rcases h4 : env.rot.renameErr with _ | e4 <;>
    rcases hc : w.config.Compress with _ | _ <;>
    simp [FileWriter.write, FileWriter.fileWrite, FileWriter.rotate,
      FileWriter.archive, hcl, hlf, h1, h2, h3, h4, hc] <;>
    (try split) <;>
    exact ⟨_, rfl⟩

/-- Witness for the amended C1 at a concrete writer and outcome set. -/
theorem claim_C1_amended_witness :
    ∃ w', cexWriter1.write [9, 9, 9, 9, 9] cexEnv1 =
      GoRes.ok (cexEnv1.appendN, cexEnv1.appendErr, w') :=
  claim_C1_amended cexWriter1 [9, 9, 9, 9, 9] cexEnv1 rfl rfl

/- ### Claim C3: the byte counter across rotations -/

/-- A writer over its threshold, about to rotate. -/
def cexWriter3 : FileWriter := {
  closed := false
  config := { LogDirName := "d", LogFileName := "f.log", Compress := false,
              MaxTimeTimeToKeep := 0, MaxLogFileSizeBytes := 100 }
  logFileNameFullPath := "d/f.log"
  byteCounter := 500
  logFile := some .opened
  activeFile := some [7]
  archivedFiles := []
  wgCount := 0
  pendingCompress := [] }

/-- Rotation outcomes in which only the archive rename fails. -/
def cexRot3 : RotateEnv :=
  { closeErr := none, mkdirErr := none,
    renameErr := some (.ioError "rename failed"), openErr := none, now := "T3" }

/-- Counterexample to claim C3: the archive rename fails during this
rotation, yet the byte counter is reset to zero (and `rotate` even reports
success), because the source discards `archive`'s error. -/
theorem claim_C3_counterexample :
    cexRot3.renameErr = some (GoError.ioError "rename failed") ∧
    cexWriter3.rotate cexRot3 =
      GoRes.ok
        ({ cexWriter3 with
            logFile := some HandleState.opened
            byteCounter := 0 },
          none) :=
  ⟨rfl, by decide⟩

/-- Claim C3 as amended: the byte counter is reset to zero by exactly the
rotations in which closing the old handle, re-creating the directory and
reopening the active file all succeed — regardless of whether the archive
rename succeeded; when the close, the directory creation or the reopen
fails, the counter is left unchanged and the failure is returned. -/
theorem claim_C3_amended (w : FileWriter) (env : RotateEnv)
    (h : w.logFile = some HandleState.opened) :
    (env.closeErr = none → env.mkdirErr = none → env.openErr = none →
      ∃ w', w.rotate env = GoRes.ok (w', none) ∧ w'.byteCounter = 0) ∧
    (∀ e, env.closeErr = some e →
      ∃ w', w.rotate env = GoRes.ok (w', some e) ∧
        w'.byteCounter = w.byteCounter) ∧
    (∀ e, env.closeErr = none → env.mkdirErr = some e →
      ∃ w', w.rotate env = GoRes.ok (w', some e) ∧
        w'.byteCounter = w.byteCounter) ∧
    (∀ e, env.closeErr = none → env.mkdirErr = none → env.openErr = some e →
      ∃ w', w.rotate env = GoRes.ok (w', some e) ∧
        w'.byteCounter = w.byteCounter) := by
  refine ⟨?_, ?_, ?_, ?_⟩
  · intro h1 h2 h3
    rcases h4 : env.renameErr with _ | e4 <;>
      rcases hc : w.config.Compress with _ | _ <;>
      simp [FileWriter.rotate, FileWriter.archive, h, h1, h2, h3, h4, hc]
  · intro e h1
    simp [FileWriter.rotate, h, h1]
  · intro e h1 h2
    simp [FileWriter.rotate, h, h1, h2]
  · intro e h1 h2 h3
    rcases h4 : env.renameErr with _ | e4 <;>
      rcases hc : w.config.Compress with _ | _ <;>
      simp [FileWriter.rotate, FileWriter.archive, h, h1, h2, h3, h4, hc]

/-- Witness for the amended C3: a fully successful rotation of the
concrete writer resets the counter to zero. -/
theorem claim_C3_amended_witness :
    ∃ w', cexWriter3.rotate
        { closeErr := none, mkdirErr := none, renameErr := none,
          openErr := none, now := "T3" } = GoRes.ok (w', none) ∧
      w'.byteCounter = 0 :=
  (claim_C3_amended cexWriter3
    { closeErr := none, mkdirErr := none, renameErr := none,
      openErr := none, now := "T3" } rfl).1 rfl rfl rfl

/- ### Claim C5: counter accounting and the rotation trigger -/

/-- Iterate `Write` over a sequence of (payload, outcome) pairs,
discarding the per-call return values as a caller that keeps writing
does. -/
def writeAll (w : FileWriter) : List (List Nat × WriteEnv) → GoRes FileWriter
  | [] => .ok w
  | p :: rest =>
    match w.write p.1 p.2 with
    | .fatal m => .fatal m
    | .ok (_, _, w') => writeAll w' rest

/-- Total size of a sequence of payloads. -/
def sumLens (l : List (List Nat × WriteEnv)) : Int :=
  l.foldr (fun p acc => (p.1.length : Int) + acc) 0

/-- Concatenation of a sequence of payloads. -/
def joinMsgs (l : List (List Nat × WriteEnv)) : List Nat :=
  l.foldr (fun p acc => p.1 ++ acc) []

/-- The OS accepted the whole payload and reported no error. -/
def appendOkEnv (p : List Nat × WriteEnv) : Prop :=
  p.2.appendErr = none ∧ p.2.appendN = p.1.length

instance (p : List Nat × WriteEnv) : Decidable (appendOkEnv p) :=
  inferInstanceAs (Decidable (_ = _ ∧ _ = _))

theorem sumLens_nonneg (l : List (List Nat × WriteEnv)) : 0 ≤ sumLens l := by
  induction l with
  | nil => simp [sumLens]
  | cons p rest ih =>
    simp only [sumLens, List.foldr_cons] at *
    positivity

/-- One `Write` on a live writer: when the updated counter does not exceed
the maximum the result state is exactly the append-updated state (no
rotation: no field but the active content and the counter changes); when
it exceeds the maximum, the state is exactly the one `rotate` produces on
the append-updated state. -/
theorem write_append_step (w : FileWriter) (msg : List Nat) (env : WriteEnv)
    (hcl : w.closed = false) (hlf : w.logFile = some HandleState.opened) :
    (¬ w.byteCounter + (env.appendN : Int) > w.config.MaxLogFileSizeBytes →
      w.write msg env = GoRes.ok (env.appendN, env.appendErr,
        { w with
            activeFile := some (w.activeFile.getD [] ++ msg.take env.appendN)
            byteCounter := w.byteCounter + (env.appendN : Int) })) ∧
    (w.byteCounter + (env.appendN : Int) > w.config.MaxLogFileSizeBytes →
      ∀ p, ({ w with
          activeFile := some (w.activeFile.getD [] ++ msg.take env.appendN)
          byteCounter := w.byteCounter + (env.appendN : Int) } :
            FileWriter).rotate env.rot = GoRes.ok p →
        w.write msg env = GoRes.ok (env.appendN, env.appendErr, p.1)) := by
  constructor
  · intro hthr
    simp only [FileWriter.write, FileWriter.fileWrite, hcl, hlf]
    simp [hthr]
  · intro hthr p hp
    obtain ⟨w', e'⟩ := p
    rw [hcl, hlf] at hp
    simp only [FileWriter.write, FileWriter.fileWrite, hcl, hlf]
    simp only [Bool.false_eq_true, if_false]
    rw [if_pos (by simpa using hthr)]
    rw [hp]

/-- A run of fully successful writes whose cumulative size keeps the
counter at or below the maximum performs no rotation: the final state
differs from the initial one only in the active content (the concatenation
of the payloads is appended) and the counter (the sum of the lengths is
added); in particular `archivedFiles`, the handle and the pending
compression tasks are untouched. -/
theorem writeAll_below_threshold :
    ∀ (l : List (List Nat × WriteEnv)) (w : FileWriter) (c : List Nat),
      w.closed = false → w.logFile = some HandleState.opened →
      w.activeFile = some c → (∀ p ∈ l, appendOkEnv p) →
      w.byteCounter + sumLens l ≤ w.config.MaxLogFileSizeBytes →
      writeAll w l = GoRes.ok
        { w with
            activeFile := some (c ++ joinMsgs l)
            byteCounter := w.byteCounter + sumLens l } := by
  intro l
  induction l with
  | nil =>
    intro w c hcl hlf hact _ _
    simp only [writeAll, joinMsgs, sumLens, List.foldr_nil, List.append_nil,
      Int.add_zero]
    cases w
    simp_all
  | cons p rest ih =>
    intro w c hcl hlf hact hok hsum
    have hokp : appendOkEnv p := hok p (by simp)
    have hsum' : (p.1.length : Int) + sumLens rest = sumLens (p :: rest) := by
      simp [sumLens]
    have hrest_nonneg := sumLens_nonneg rest
    have hthr : ¬ w.byteCounter + (p.2.appendN : Int) >
        w.config.MaxLogFileSizeBytes := by
      rw [hokp.2]
      have : w.byteCounter + (p.1.length : Int) ≤
          w.byteCounter + sumLens (p :: rest) := by
        rw [← hsum']
        omega
      omega
    have hw := (write_append_step w p.1 p.2 hcl hlf).1 hthr
    simp only [writeAll, hw]
    have hact1 : ({ w with
        activeFile := some (w.activeFile.getD [] ++ p.1.take p.2.appendN)
        byteCounter := w.byteCounter + (p.2.appendN : Int) } :
          FileWriter).activeFile = some (c ++ p.1) := by
      simp [hact, hokp.2]
    have := ih ({ w with
        activeFile := some (w.activeFile.getD [] ++ p.1.take p.2.appendN)
        byteCounter := w.byteCounter + (p.2.appendN : Int) } : FileWriter)
      (c ++ p.1) hcl hlf hact1 (fun q hq => hok q (by simp [hq]))
      (by
        show w.byteCounter + (p.2.appendN : Int) + sumLens rest ≤
          w.config.MaxLogFileSizeBytes
        rw [hokp.2]
        omega)
    rw [this]
    congr 1
    simp [hact, hokp.2, joinMsgs, sumLens, Int.add_assoc]

/-- Claim C5: on a live writer every write adds the reported length to the
byte counter, rotation is triggered synchronously exactly when the counter
then exceeds the configured maximum (first conjunct), and a sequence of
successful writes whose cumulative size stays at or below the maximum
performs no rotation and leaves the active file holding exactly the
appended payloads (second conjunct). -/
theorem claim_C5_threshold :
    (∀ (w : FileWriter) (msg : List Nat) (env : WriteEnv),
      w.closed = false → w.logFile = some HandleState.opened →
      (¬ w.byteCounter + (env.appendN : Int) > w.config.MaxLogFileSizeBytes →
        w.write msg env = GoRes.ok (env.appendN, env.appendErr,
          { w with
              activeFile := some (w.activeFile.getD [] ++ msg.take env.appendN)
              byteCounter := w.byteCounter + (env.appendN : Int) })) ∧
      (w.byteCounter + (env.appendN : Int) > w.config.MaxLogFileSizeBytes →
        ∀ p, ({ w with
            activeFile := some (w.activeFile.getD [] ++ msg.take env.appendN)
            byteCounter := w.byteCounter + (env.appendN : Int) } :
              FileWriter).rotate env.rot = GoRes.ok p →
          w.write msg env = GoRes.ok (env.appendN, env.appendErr, p.1))) ∧
    (∀ (l : List (List Nat × WriteEnv)) (w : FileWriter) (c : List Nat),
      w.closed = false → w.logFile = some HandleState.opened →
      w.activeFile = some c → (∀ p ∈ l, appendOkEnv p) →
      w.byteCounter + sumLens l ≤ w.config.MaxLogFileSizeBytes →
      writeAll w l = GoRes.ok
        { w with
            activeFile := some (c ++ joinMsgs l)
            byteCounter := w.byteCounter + sumLens l }) :=
  ⟨fun w msg env hcl hlf => write_append_step w msg env hcl hlf,
   writeAll_below_threshold⟩

/-- Concrete writer for the C5 witness. -/
def witWriter5 : FileWriter := {
  closed := false
  config := { LogDirName := "d", LogFileName := "f.log", Compress := false,
              MaxTimeTimeToKeep := 0, MaxLogFileSizeBytes := 100 }
  logFileNameFullPath := "d/f.log"
  byteCounter := 0
  logFile := some .opened
  activeFile := some []
  archivedFiles := []
  wgCount := 0
  pendingCompress := [] }

/-- A fully successful write outcome for an `n`-byte payload. -/
def witEnv5 (n : Nat) : WriteEnv :=
  { appendN := n, appendErr := none,
    rot := { closeErr := none, mkdirErr := none, renameErr := none,
             openErr := none, now := "W" } }

/-- Concrete fully successful write trace for the C5 witness. -/
def witTrace5 : List (List Nat × WriteEnv) :=
  [([1, 2], witEnv5 2), ([3], witEnv5 1)]

/-- Witness for C5: the concrete three-byte trace below the 100-byte
threshold rotates nothing and appends everything. -/
theorem claim_C5_threshold_witness :
    writeAll witWriter5 witTrace5 = GoRes.ok
      { witWriter5 with
          activeFile := some (([] : List Nat) ++ joinMsgs witTrace5)
          byteCounter := witWriter5.byteCounter + sumLens witTrace5 } :=
  claim_C5_threshold.2 witTrace5 witWriter5 [] rfl rfl rfl (by decide)
    (by decide)

/- ### Claim C6: what the construction-time sweep schedules -/

/-- Configuration with compression disabled and a non-`log`-suffixed
active file name. -/
def cexCfg6 : FileWriterConfig :=
  { LogDirName := "d", LogFileName := "app.txt", Compress := false,
    MaxTimeTimeToKeep := 0, MaxLogFileSizeBytes := 1000 }

/-- Two directory entries: an archived copy of the active file (matching
its base name suffix `.txt`) and an unrelated file ending in `log`. -/
def cexEnts6 : List DirEnt :=
  [{ name := "app-2020.txt", infoErr := false, age := 0, removeErr := none },
   { name := "foo.log", infoErr := false, age := 0, removeErr := none }]

/-- Counterexample to claim C6: with compression disabled the sweep still
schedules a background compression — and it schedules the entry ending in
the literal `log`, not the one matching the active file's base name
suffix. -/
theorem claim_C6_counterexample :
    cexCfg6.Compress = false ∧
    cleanupRun cexCfg6 { readDirErr := none, dirents := cexEnts6 } =
      ([], ["d/foo.log"], none) :=
  ⟨rfl, by decide⟩

/-- Claim C6 as amended: the sweep schedules background compression for
exactly the entries whose `Info()` call succeeded, that the age rule did
not just delete, whose name ends in the literal suffix `"log"`, and whose
name is not the active file name — unconditionally, even when compression
is disabled (second conjunct: the sweep's result does not depend on the
`Compress` flag), unlike scheduling on rotation, which does nothing when
compression is disabled (third conjunct). -/
theorem claim_C6_amended :
    (∀ (cfg : FileWriterConfig) (ents : List DirEnt),
      (cleanupEnts cfg ents).2 =
        (ents.filter (fun e => !e.infoErr && !(shouldDelete cfg e) &&
          (goHasSuffix e.name "log" && e.name != cfg.LogFileName))).map
          (fun e => goPathJoin cfg.LogDirName e.name)) ∧
    (∀ (cfg : FileWriterConfig) (ents : List DirEnt) (b1 b2 : Bool),
      cleanupEnts { cfg with Compress := b1 } ents =
        cleanupEnts { cfg with Compress := b2 } ents) ∧
    (∀ (w : FileWriter) (renameErr : Option GoError) (now : String),
      w.config.Compress = false →
      ((w.archive renameErr now).1).pendingCompress = w.pendingCompress) := by
  refine ⟨?_, ?_, ?_⟩
  · intro cfg ents
    induction ents with
    | nil => simp [cleanupEnts]
    | cons e rest ih =>
      by_cases h1 : e.infoErr
      · simp [cleanupEnts, h1, ih]
      · by_cases h2 : shouldDelete cfg e
        · simp [cleanupEnts, h1, h2, ih]
        · by_cases h3 : goHasSuffix e.name "log" && e.name != cfg.LogFileName
          · simp [cleanupEnts, h1, h2, h3, ih]
          · simp only [Bool.not_eq_true] at h3
            simp [cleanupEnts, h1, h2, h3, ih]
  · intro cfg ents b1 b2
    induction ents with
    | nil => rfl
    | cons e rest ih =>
      simp only [cleanupEnts, shouldDelete, ih]
  · intro w renameErr now h
    rcases renameErr with _ | e <;> simp [FileWriter.archive, h]

/-- Writer with compression disabled for the C6 witness. -/
def witWriter6 : FileWriter := {
  closed := false
  config := cexCfg6
  logFileNameFullPath := "d/app.txt"
  byteCounter := 0
  logFile := some .opened
  activeFile := some [1]
  archivedFiles := []
  wgCount := 0
  pendingCompress := [] }

/-- Witness for the amended C6: with compression disabled a successful
rotation-time `archive` schedules nothing. -/
theorem claim_C6_amended_witness :
    ((witWriter6.archive none "T").1).pendingCompress =
      witWriter6.pendingCompress :=
  claim_C6_amended.2.2 witWriter6 none "T" rfl

/- ### Claim C7: startup handling of a pre-existing active file -/

/-- Claim C7: at construction (all environment calls succeeding), when the
active file exists at or above the configured maximum it is archived —
the timestamped archive appears and a fresh empty active file is opened —
and the byte counter is untouched; when it exists below the maximum, the
byte counter is initialized to its size and the existing content is kept
for appending. -/
theorem claim_C7_startup (w : FileWriter) (env : InitEnv) (size : Int)
    (h1 : env.mkdirErr = none) (h2 : env.cleanupEnv.readDirErr = none)
    (h3 : env.statSize = some size) (h4 : env.openErr = none) :
    (size ≥ w.config.MaxLogFileSizeBytes → env.renameErr = none →
      initWriter w env =
        ({ w with
            wgCount := w.wgCount +
              ((cleanupEnts w.config env.cleanupEnv.dirents).2).length +
              (if w.config.Compress then 1 else 0)
            pendingCompress :=
              (if w.config.Compress then
                [archiveNameAt w.logFileNameFullPath env.now] else []) ++
              ((cleanupEnts w.config env.cleanupEnv.dirents).2 ++
                w.pendingCompress)
            archivedFiles :=
              (archiveNameAt w.logFileNameFullPath env.now,
                w.activeFile.getD []) :: w.archivedFiles
            activeFile := some []
            logFile := some HandleState.opened }, none)) ∧
    (size < w.config.MaxLogFileSizeBytes →
      initWriter w env =
        ({ w with
            wgCount := w.wgCount +
              ((cleanupEnts w.config env.cleanupEnv.dirents).2).length
            pendingCompress :=
              (cleanupEnts w.config env.cleanupEnv.dirents).2 ++
                w.pendingCompress
            byteCounter := size
            logFile := some HandleState.opened
            activeFile := some (w.activeFile.getD []) }, none)) := by
  constructor
  · intro hsize h5
    rcases hc : w.config.Compress with _ | _ <;>
      simp [initWriter, cleanupRun, FileWriter.archive, finishOpen,
        h1, h2, h3, h4, h5, hc, if_pos hsize, Int.add_assoc]
  · intro hsize
    have : ¬ size ≥ w.config.MaxLogFileSizeBytes := by omega
    simp [initWriter, cleanupRun, finishOpen, h1, h2, h3, h4, this]

/-- Concrete writer for the C7 witness: a five-byte active file below the
100-byte threshold. -/
def witWriter7 : FileWriter := {
  closed := false
  config := { LogDirName := "d", LogFileName := "f.log", Compress := true,
              MaxTimeTimeToKeep := 0, MaxLogFileSizeBytes := 100 }
  logFileNameFullPath := "d/f.log"
  byteCounter := 0
  logFile := none
  activeFile := some [1, 2, 3, 4, 5]
  archivedFiles := []
  wgCount := 0
  pendingCompress := [] }

/-- Fully successful construction environment with an empty directory
listing and a five-byte stat result. -/
def witInit7 : InitEnv :=
  { mkdirErr := none, cleanupEnv := { readDirErr := none, dirents := [] },
    statSize := some 5, renameErr := none, now := "T7", openErr := none }

/-- Witness for C7, below-threshold side: the counter is seeded with the
existing size and the content kept. -/
theorem claim_C7_startup_witness :
    initWriter witWriter7 witInit7 =
      ({ witWriter7 with
          byteCounter := 5
          logFile := some HandleState.opened
          activeFile := some [1, 2, 3, 4, 5] }, none) := by
  have h := (claim_C7_startup witWriter7 witInit7 5 rfl rfl rfl rfl).2
    (by decide)
  rw [h]
  decide

/- ### Claim C10: construction defaults and the active path -/

/-- `initialize` never alters the configuration, the joined active path or
the closed flag. -/
theorem initWriter_preserves (w : FileWriter) (env : InitEnv) :
    ((initWriter w env).1).config = w.config ∧
    ((initWriter w env).1).logFileNameFullPath = w.logFileNameFullPath ∧
    ((initWriter w env).1).closed = w.closed := by
  unfold initWriter cleanupRun FileWriter.archive finishOpen
  rcases env.mkdirErr with _ | e1 <;>
    rcases env.cleanupEnv.readDirErr with _ | e2 <;>
    rcases env.statSize with _ | size <;>
    rcases env.renameErr with _ | e3 <;>
    rcases env.openErr with _ | e4 <;>
    rcases hc : w.config.Compress with _ | _ <;>
    simp_all <;>
    (try split) <;>
    simp_all

/-- The defaulting prologue leaves a non-empty name alone and replaces an
empty one. -/
theorem applyDefaults_spec (c : FileWriterConfig) :
    (applyDefaults c).LogDirName =
      (if c.LogDirName = "" then defaultLogDirName else c.LogDirName) ∧
    (applyDefaults c).LogFileName =
      (if c.LogFileName = "" then defaultLogFileName else c.LogFileName) := by
  unfold applyDefaults
  by_cases h0 : c.MaxLogFileSizeBytes = 0 <;>
    by_cases h1 : c.LogDirName = "" <;>
    by_cases h2 : c.LogFileName = "" <;>
    simp [h0, h1, h2]

/-- Claim C10: at construction an empty directory name is replaced with
`"./log"`, an empty file name with `"log.log"`, and the writer's active
file path is the `path.Join` of the (possibly defaulted) directory and
file name. -/
theorem claim_C10_defaults (c : FileWriterConfig) (active0 : Option (List Nat))
    (env : InitEnv) (w : FileWriter)
    (h : NewFileWriter c active0 env = some w) :
    (c.LogDirName = "" → w.config.LogDirName = defaultLogDirName) ∧
    (c.LogFileName = "" → w.config.LogFileName = defaultLogFileName) ∧
    w.logFileNameFullPath =
      goPathJoin w.config.LogDirName w.config.LogFileName ∧
    defaultLogDirName = "./log" ∧ defaultLogFileName = "log.log" := by
  unfold NewFileWriter at h
  rcases hres : initWriter (initialWriterState (applyDefaults c) active0) env
    with ⟨w1, _ | e⟩ <;> rw [hres] at h
  · replace h : w = w1 := by simpa using h.symm
    obtain ⟨hcfg, hpath, _⟩ :=
      initWriter_preserves (initialWriterState (applyDefaults c) active0) env
    rw [hres] at hcfg hpath
    simp only [initialWriterState] at hcfg hpath
    subst h
    have hd := (applyDefaults_spec c).1
    have hf := (applyDefaults_spec c).2
    refine ⟨?_, ?_, ?_, rfl, rfl⟩
    · intro hdir
      rw [hcfg, hd, if_pos hdir]
    · intro hfile
      rw [hcfg, hf, if_pos hfile]
    · rw [hpath, hcfg]
  · cases h

/-- All-empty configuration for the C10 witness. -/
def witCfg10 : FileWriterConfig :=
  { LogDirName := "", LogFileName := "", Compress := false,
    MaxTimeTimeToKeep := 0, MaxLogFileSizeBytes := 0 }

/-- Fully successful construction environment over an empty directory with
no pre-existing active file. -/
def witInit10 : InitEnv :=
  { mkdirErr := none, cleanupEnv := { readDirErr := none, dirents := [] },
    statSize := none, renameErr := none, now := "", openErr := none }

/-- The writer the defaulted construction produces. -/
def witResult10 : FileWriter := {
  closed := false
  config := { LogDirName := "./log", LogFileName := "log.log",
              Compress := false, MaxTimeTimeToKeep := 0,
              MaxLogFileSizeBytes := 1000000 }
  logFileNameFullPath := "log/log.log"
  byteCounter := 0
  logFile := some .opened
  activeFile := some []
  archivedFiles := []
  wgCount := 0
  pendingCompress := [] }

/-- Witness for C10: constructing with empty names yields the defaulted
configuration and the joined path (`path.Join "./log" "log.log" =
"log/log.log"`). -/
theorem claim_C10_defaults_witness :
    NewFileWriter witCfg10 none witInit10 = some witResult10 ∧
    witResult10.logFileNameFullPath =
      goPathJoin witResult10.config.LogDirName witResult10.config.LogFileName :=
  ⟨by decide,
   (claim_C10_defaults witCfg10 none witInit10 witResult10 (by decide)).2.2.1⟩

/- ### Claim C2: what `compress` leaves on disk -/

theorem compressedName_ne (fn : String) : compressedName fn ≠ fn := by
  intro h
  have hlen := congrArg String.length h
  have h1 : ("." : String).length = 1 := rfl
  have h2 : (compressedExtension : String).length = 2 := rfl
  simp only [compressedName, String.length_append, h1, h2] at hlen
  omega

theorem tempName_ne (fn : String) : tempName fn ≠ fn := by
  intro h
  have hlen := congrArg String.length h
  have h1 : ("." : String).length = 1 := rfl
  have h2 : (compressedExtension : String).length = 2 := rfl
  have h3 : (processingExtenstion : String).length = 10 := rfl
  simp only [tempName, compressedName, String.length_append, h1, h2, h3]
    at hlen
  omega

theorem tempName_ne_compressedName (fn : String) :
    tempName fn ≠ compressedName fn := by
  intro h
  have hlen := congrArg String.length h
  have h1 : ("." : String).length = 1 := rfl
  have h3 : (processingExtenstion : String).length = 10 := rfl
  simp only [tempName, String.length_append, h1, h3] at hlen
  omega

/-- An archive file about to be compressed, alongside an unrelated file. -/
def cexFS2 : GoFS := ["d/f-2020.log", "d/other.log"]

/-- Compression outcomes in which only the final rename fails. -/
def cexEnv2 : CompressEnv :=
  { openErr := none, tempOpenErr := none, copyErr := none,
    renameErr := some (.ioError "rename failed"),
    removeTempErr := none, removeOrigErr := none }

/-- Counterexample to claim C2: when the rename fails, the source still
deletes the original archive and leaves the temporary `.processing`
output behind — the temporary output is not deleted and the original is
not left untouched. -/
theorem claim_C2_counterexample :
    cexEnv2.renameErr.isSome = true ∧
    compressRun cexFS2 "d/f-2020.log" cexEnv2 =
      ["d/f-2020.log.gz.processing", "d/other.log"] ∧
    "d/f-2020.log" ∉ compressRun cexFS2 "d/f-2020.log" cexEnv2 :=
  ⟨rfl, by decide, by decide⟩

/-- Claim C2 as amended, a complete case analysis of one `compress` task
on a directory that does not yet contain the task's temporary or final
output: a failed open of either file changes nothing; a stream failure
deletes the temporary output (when that delete succeeds) and leaves the
original untouched; on full success the temporary output is renamed to
the final compressed name and the original deleted; but on a rename
failure the temporary `.processing` output remains and the original is
deleted anyway, and when the final delete fails the compressed and the
uncompressed copy are both left on disk. -/
theorem claim_C2_amended (fs : GoFS) (fn : String) (env : CompressEnv)
    (ht : tempName fn ∉ fs) (hc : compressedName fn ∉ fs) :
    (∀ e, env.openErr = some e → compressRun fs fn env = fs) ∧
    (env.openErr = none → ∀ e, env.tempOpenErr = some e →
      compressRun fs fn env = fs) ∧
    (env.openErr = none → env.tempOpenErr = none →
      ∀ e, env.copyErr = some e → env.removeTempErr = none →
      compressRun fs fn env = fs) ∧
    (env.openErr = none → env.tempOpenErr = none → env.copyErr = none →
      env.renameErr = none → env.removeOrigErr = none →
      compressRun fs fn env = compressedName fn :: fs.erase fn) ∧
    (env.openErr = none → env.tempOpenErr = none → env.copyErr = none →
      ∀ e, env.renameErr = some e → env.removeOrigErr = none →
      compressRun fs fn env = tempName fn :: fs.erase fn) ∧
    (env.openErr = none → env.tempOpenErr = none → env.copyErr = none →
      env.renameErr = none → ∀ e, env.removeOrigErr = some e →
      compressRun fs fn env = compressedName fn :: fs) := by
  have hbt : (tempName fn == fn) = false := by
    simp [tempName_ne fn]
  have hbc : (compressedName fn == fn) = false := by
    simp [compressedName_ne fn]
  refine ⟨?_, ?_, ?_, ?_, ?_, ?_⟩
  · intro e he
    simp [compressRun, he]
  · intro h1 e he
    simp [compressRun, h1, he]
  · intro h1 h2 e he h4
    simp [compressRun, fsCreate, fsRemove, h1, h2, he, h4, ht]
  · intro h1 h2 h3 h4 h5
    simp [compressRun, fsCreate, fsRemove, fsRename, h1, h2, h3, h4, h5,
      ht, hc, List.erase_cons, hbc]
  · intro h1 h2 h3 e he h5
    simp [compressRun, fsCreate, fsRemove, h1, h2, h3, he, h5, ht,
      List.erase_cons, hbt]
  · intro h1 h2 h3 h4 e he
    simp [compressRun, fsCreate, fsRemove, fsRename, h1, h2, h3, h4, he,
      ht, hc]

/-- Fully successful compression outcomes. -/
def witEnv2 : CompressEnv :=
  { openErr := none, tempOpenErr := none, copyErr := none,
    renameErr := none, removeTempErr := none, removeOrigErr := none }

/-- Compression outcomes in which only the streaming copy fails. -/
def witEnv2copy : CompressEnv :=
  { openErr := none, tempOpenErr := none,
    copyErr := some (.ioError "copy failed"),
    renameErr := none, removeTempErr := none, removeOrigErr := none }

/-- Compression outcomes in which only the final remove of the original
fails. -/
def witEnv2rm : CompressEnv :=
  { openErr := none, tempOpenErr := none, copyErr := none,
    renameErr := none, removeTempErr := none,
    removeOrigErr := some (.ioError "remove failed") }

/-- Witness for the amended C2, exercising four of its cases on a
concrete directory: full success replaces the original archive with the
compressed artifact; a stream failure leaves the directory unchanged; a
rename failure keeps the marked temporary and loses the original; a
failed final remove keeps both copies. -/
theorem claim_C2_amended_witness :
    compressRun cexFS2 "d/f-2020.log" witEnv2 =
      compressedName "d/f-2020.log" :: cexFS2.erase "d/f-2020.log" ∧
    compressRun cexFS2 "d/f-2020.log" witEnv2copy = cexFS2 ∧
    compressRun cexFS2 "d/f-2020.log" cexEnv2 =
      tempName "d/f-2020.log" :: cexFS2.erase "d/f-2020.log" ∧
    compressRun cexFS2 "d/f-2020.log" witEnv2rm =
      compressedName "d/f-2020.log" :: cexFS2 :=
  ⟨(claim_C2_amended cexFS2 "d/f-2020.log" witEnv2 (by decide)
      (by decide)).2.2.2.1 rfl rfl rfl rfl rfl,
   (claim_C2_amended cexFS2 "d/f-2020.log" witEnv2copy (by decide)
      (by decide)).2.2.1 rfl rfl (GoError.ioError "copy failed") rfl rfl,
   (claim_C2_amended cexFS2 "d/f-2020.log" cexEnv2 (by decide)
      (by decide)).2.2.2.2.1 rfl rfl rfl (GoError.ioError "rename failed")
      rfl rfl,
   (claim_C2_amended cexFS2 "d/f-2020.log" witEnv2rm (by decide)
      (by decide)).2.2.2.2.2 rfl rfl rfl rfl (GoError.ioError "remove failed")
      rfl⟩

/- ### Claim C8: archive naming -/

theorem padNum_length (w n : Nat) : (padNum w n).length = w := by
  induction w generalizing n with
  | zero => rfl
  | succ w ih => simp [padNum, ih]

theorem digitChar_lt_iff :
    ∀ a < 10, ∀ b < 10,
      decide (Nat.digitChar a < Nat.digitChar b) = decide (a < b) := by
  decide

theorem digitChar_beq_iff :
    ∀ a < 10, ∀ b < 10,
      (Nat.digitChar a == Nat.digitChar b) = (a == b) := by
  decide

/-- Ordering of naturals through one euclidean-division digit split. -/
theorem div_mod_lt_iff (k a b : Nat) (hk : 0 < k) :
    a < b ↔ (a / k < b / k ∨ (a / k = b / k ∧ a % k < b % k)) := by
  constructor
  · intro hab
    rcases Nat.lt_trichotomy (a / k) (b / k) with h | h | h
    · exact Or.inl h
    · refine Or.inr ⟨h, ?_⟩
      have ha := Nat.div_add_mod a k
      have hb := Nat.div_add_mod b k
      have hkk : k * (a / k) = k * (b / k) := by rw [h]
      omega
    · exfalso
      have h2 : b < (a / k) * k := (Nat.div_lt_iff_lt_mul hk).1 h
      have h3 : (a / k) * k ≤ a := Nat.div_mul_le_self a k
      omega
  · intro hor
    rcases hor with h | ⟨h, hm⟩
    · have h2 : a < (b / k) * k := (Nat.div_lt_iff_lt_mul hk).1 h
      have h3 : (b / k) * k ≤ b := Nat.div_mul_le_self b k
      omega
    · have ha := Nat.div_add_mod a k
      have hb := Nat.div_add_mod b k
      have hkk : k * (a / k) = k * (b / k) := by rw [h]
      omega

/-- Equality of naturals through one euclidean-division digit split. -/
theorem div_mod_eq_iff (k a b : Nat) (_hk : 0 < k) :
    a = b ↔ (a / k = b / k ∧ a % k = b % k) := by
  constructor
  · intro h
    exact ⟨by rw [h], by rw [h]⟩
  · intro hp
    have ha := Nat.div_add_mod a k
    have hb := Nat.div_add_mod b k
    have hkk : k * (a / k) = k * (b / k) := by rw [hp.1]
    have := hp.2
    omega

theorem padNum_lexLt :
    ∀ (w a b : Nat), a < 10 ^ w → b < 10 ^ w →
      lexLt (padNum w a) (padNum w b) = decide (a < b) := by
  intro w
  induction w with
  | zero =>
    intro a b ha hb
    have ha0 : a = 0 := by simpa using ha
    have hb0 : b = 0 := by simpa using hb
    subst ha0; subst hb0
    rfl
  | succ w ih =>
    intro a b ha hb
    have hpow : 0 < 10 ^ w := Nat.pos_pow_of_pos w (by norm_num)
    have hsucc : 10 ^ (w + 1) = 10 ^ w * 10 := by rw [Nat.pow_succ]
    have hda : a / 10 ^ w < 10 := by
      rw [Nat.div_lt_iff_lt_mul hpow]
      omega
    have hdb : b / 10 ^ w < 10 := by
      rw [Nat.div_lt_iff_lt_mul hpow]
      omega
    have hma : a % 10 ^ w < 10 ^ w := Nat.mod_lt _ hpow
    have hmb : b % 10 ^ w < 10 ^ w := Nat.mod_lt _ hpow
    simp only [padNum, lexLt]
    rw [digitChar_lt_iff _ hda _ hdb, digitChar_beq_iff _ hda _ hdb,
      ih _ _ hma hmb]
    rw [Bool.eq_iff_iff]
    simp only [Bool.or_eq_true, Bool.and_eq_true, decide_eq_true_eq,
      beq_iff_eq]
    exact (div_mod_lt_iff (10 ^ w) a b hpow).symm

/-- Cons-step of list `BEq`. -/
theorem listChar_cons_beq (x y : Char) (xs ys : List Char) :
    ((x :: xs : List Char) == y :: ys) = (x == y && (xs == ys)) := rfl

theorem padNum_beq :
    ∀ (w a b : Nat), a < 10 ^ w → b < 10 ^ w →
      ((padNum w a == padNum w b) = (a == b)) := by
  intro w
  induction w with
  | zero =>
    intro a b ha hb
    have ha0 : a = 0 := by simpa using ha
    have hb0 : b = 0 := by simpa using hb
    subst ha0; subst hb0
    rfl
  | succ w ih =>
    intro a b ha hb
    have hpow : 0 < 10 ^ w := Nat.pos_pow_of_pos w (by norm_num)
    have hsucc : 10 ^ (w + 1) = 10 ^ w * 10 := by rw [Nat.pow_succ]
    have hda : a / 10 ^ w < 10 := by
      rw [Nat.div_lt_iff_lt_mul hpow]
      omega
    have hdb : b / 10 ^ w < 10 := by
      rw [Nat.div_lt_iff_lt_mul hpow]
      omega
    have hma : a % 10 ^ w < 10 ^ w := Nat.mod_lt _ hpow
    have hmb : b % 10 ^ w < 10 ^ w := Nat.mod_lt _ hpow
    simp only [padNum, listChar_cons_beq]
    rw [digitChar_beq_iff _ hda _ hdb, ih _ _ hma hmb]
    rw [Bool.eq_iff_iff]
    simp only [Bool.and_eq_true, beq_iff_eq]
    exact (div_mod_eq_iff (10 ^ w) a b hpow).symm

theorem lexLt_cons_same (c : Char) (xs ys : List Char) :
    lexLt (c :: xs) (c :: ys) = lexLt xs ys := by
  simp [lexLt]

theorem lexLt_append (l1 l2 r1 r2 : List Char) (h : l1.length = l2.length) :
    lexLt (l1 ++ r1) (l2 ++ r2) =
      (lexLt l1 l2 || ((l1 == l2) && lexLt r1 r2)) := by
  induction l1 generalizing l2 with
  | nil =>
    cases l2 with
    | nil => simp [lexLt]
    | cons b bs => simp at h
  | cons a as ih =>
    cases l2 with
    | nil => simp at h
    | cons b bs =>
      simp only [List.cons_append, lexLt, listChar_cons_beq, List.append_eq]
      rw [ih bs (by simpa using h)]
      cases decide (a < b) <;> cases (a == b) <;> cases lexLt as bs <;>
        cases (as == bs) <;> cases lexLt r1 r2 <;> rfl

/-- `lexLt` on equal-width padded blocks splits block-first. -/
theorem lexLt_append_pad (w x y : Nat) (r1 r2 : List Char) :
    lexLt (padNum w x ++ r1) (padNum w y ++ r2) =
      (lexLt (padNum w x) (padNum w y) ||
        ((padNum w x == padNum w y) && lexLt r1 r2)) :=
  lexLt_append _ _ _ _ (by rw [padNum_length, padNum_length])

/-- Lexicographic comparison of two formatted archive timestamps agrees
with chronological comparison of the instants: the layout
`2006-01-02T15-04-05.00000` is sortable. -/
theorem goFormat_lexLt (t1 t2 : GoTime) (h1 : t1.wf) (h2 : t2.wf) :
    lexLt (goFormatChars t1) (goFormatChars t2) = tsLtB t1 t2 := by
  obtain ⟨hy1, hmo1, hd1, hh1, hmi1, hs1, hf1⟩ := h1
  obtain ⟨hy2, hmo2, hd2, hh2, hmi2, hs2, hf2⟩ := h2
  unfold goFormatChars tsLtB
  simp only [List.append_assoc, List.cons_append]
  rw [lexLt_append_pad, lexLt_cons_same, lexLt_append_pad, lexLt_cons_same,
    lexLt_append_pad, lexLt_cons_same, lexLt_append_pad, lexLt_cons_same,
    lexLt_append_pad, lexLt_cons_same, lexLt_append_pad, lexLt_cons_same]
  rw [padNum_lexLt 4 _ _ hy1 hy2, padNum_beq 4 _ _ hy1 hy2,
    padNum_lexLt 2 _ _ hmo1 hmo2, padNum_beq 2 _ _ hmo1 hmo2,
    padNum_lexLt 2 _ _ hd1 hd2, padNum_beq 2 _ _ hd1 hd2,
    padNum_lexLt 2 _ _ hh1 hh2, padNum_beq 2 _ _ hh1 hh2,
    padNum_lexLt 2 _ _ hmi1 hmi2, padNum_beq 2 _ _ hmi1 hmi2,
    padNum_lexLt 2 _ _ hs1 hs2, padNum_beq 2 _ _ hs1 hs2,
    padNum_lexLt 5 _ _ hf1 hf2]

/-- The formatted archive timestamp always has exactly 25 characters
(fixed-width layout, five of them sub-second digits). -/
theorem goFormatChars_length (t : GoTime) : (goFormatChars t).length = 25 := by
  simp [goFormatChars, padNum_length]

theorem takeWhile_append_all (p : Char → Bool) (xs ys : List Char)
    (h : ∀ x ∈ xs, p x = true) :
    (xs ++ ys).takeWhile p = xs ++ ys.takeWhile p := by
  induction xs with
  | nil => simp
  | cons a l ih =>
    simp only [List.cons_append, List.takeWhile_cons, h a (by simp),
      if_true, List.cons.injEq, true_and]
    exact ih (fun x hx => h x (by simp [hx]))

theorem dropWhile_append_all (p : Char → Bool) (xs ys : List Char)
    (h : ∀ x ∈ xs, p x = true) :
    (xs ++ ys).dropWhile p = ys.dropWhile p := by
  induction xs with
  | nil => simp
  | cons a l ih =>
    simp only [List.cons_append, List.dropWhile_cons, h a (by simp), if_true]
    exact ih (fun x hx => h x (by simp [hx]))

theorem extScan_through (xs : List Char) (acc rest : List Char)
    (h : ∀ x ∈ xs, x ≠ '/' ∧ x ≠ '.') :
    extScan acc (xs ++ '.' :: rest) = '.' :: (xs.reverse ++ acc) := by
  induction xs generalizing acc with
  | nil => simp [extScan]
  | cons a l ih =>
    have ha := h a (by simp)
    simp only [List.cons_append, extScan, List.append_eq]
    rw [if_neg (by simp [ha.1]), if_neg (by simp [ha.2])]
    rw [ih (a :: acc) (fun x hx => h x (by simp [hx]))]
    simp

theorem takeElem_pre (xt r : List Char) (hs : '/' ∉ xt)
    (hr : r = [] ∨ ∃ t, r = '/' :: t) :
    takeElem (xt ++ r) = (xt, r) := by
  induction xt with
  | nil =>
    rcases hr with rfl | ⟨t, rfl⟩
    · rfl
    · simp [takeElem]
  | cons a l ih =>
    have ha : a ≠ '/' := fun hh => hs (by simp [hh])
    have h2 := ih (fun hm => hs (by simp [hm]))
    simp [takeElem, ha, h2]

theorem cleanCore_elem (fuel : Nat) (out : List Char) (dotdot : Nat)
    (x : Char) (xt r : List Char)
    (hx1 : x ≠ '/') (hx2 : x ≠ '.') (hs : '/' ∉ xt)
    (hr : r = [] ∨ ∃ t, r = '/' :: t) :
    cleanCore false (fuel + 1) out dotdot (x :: (xt ++ r)) =
      cleanCore false fuel
        ((if out.length != 0 then out ++ ['/'] else out) ++ (x :: xt))
        dotdot r := by
  have hb1 : (x == '/') = false := by simp [hx1]
  have hb2 : (x == '.') = false := by simp [hx2]
  have hfull : takeElem (x :: (xt ++ r)) = (x :: xt, r) := by
    simp [takeElem, hb1, takeElem_pre xt r hs hr]
  simp only [cleanCore, List.cons_append]
  rw [if_neg (by simp [hb1]), if_neg (by simp [hb2]), if_neg (by simp [hb2])]
  simp only [List.append_eq, hfull, Bool.false_and, Bool.not_false,
    Bool.true_and, Bool.false_or]

/-- Defining equation of `goPathClean` on a non-empty literal. -/
theorem goPathClean_mk_cons (c : Char) (rest : List Char) :
    goPathClean (String.mk (c :: rest)) =
      (let res :=
        if c == '/' then cleanCore true (c :: rest).length ['/'] 1 rest
        else cleanCore false (c :: rest).length [] 0 (c :: rest)
       if res.isEmpty then "." else String.mk res) := rfl

theorem goPathClean_trailing (x : Char) (xt : List Char)
    (hx1 : x ≠ '/') (hx2 : x ≠ '.') (hxs : '/' ∉ xt) :
    goPathClean (String.mk (x :: xt ++ ['/'])) = String.mk (x :: xt) := by
  have hb1 : (x == '/') = false := by simp [hx1]
  rw [show (x :: xt ++ ['/'] : List Char) = x :: (xt ++ ['/']) from rfl]
  rw [goPathClean_mk_cons]
  simp only [hb1, Bool.false_eq_true, if_false]
  rw [show (x :: (xt ++ ['/']) : List Char).length = xt.length + 1 + 1 from by
    simp only [List.length_cons, List.length_append, List.length_nil]]
  rw [cleanCore_elem (xt.length + 1) [] 0 x xt ['/'] hx1 hx2 hxs
    (Or.inr ⟨[], rfl⟩)]
  simp [cleanCore]

theorem goPathClean_two (x : Char) (xt : List Char) (y : Char) (yt : List Char)
    (hx1 : x ≠ '/') (hx2 : x ≠ '.') (hxs : '/' ∉ xt)
    (hy1 : y ≠ '/') (hy2 : y ≠ '.') (hys : '/' ∉ yt) :
    goPathClean (String.mk (x :: xt ++ '/' :: y :: yt)) =
      String.mk (x :: xt ++ '/' :: y :: yt) := by
  have hb1 : (x == '/') = false := by simp [hx1]
  rw [show (x :: xt ++ '/' :: y :: yt : List Char) =
    x :: (xt ++ '/' :: y :: yt) from rfl]
  rw [goPathClean_mk_cons]
  simp only [hb1, Bool.false_eq_true, if_false]
  rw [show (x :: (xt ++ '/' :: y :: yt) : List Char).length =
      xt.length + yt.length + 1 + 1 + 1 from by
    simp only [List.length_cons, List.length_append]
    omega]
  rw [cleanCore_elem (xt.length + yt.length + 1 + 1) [] 0 x xt
    ('/' :: y :: yt) hx1 hx2 hxs (Or.inr ⟨y :: yt, rfl⟩)]
  rw [show cleanCore false (xt.length + yt.length + 1 + 1)
      ((if ([] : List Char).length != 0 then [] ++ ['/'] else []) ++ (x :: xt))
      0 ('/' :: y :: yt) =
      cleanCore false (xt.length + yt.length + 1) (x :: xt) 0 (y :: yt) from by
    simp [cleanCore]]
  rw [show (y :: yt : List Char) = y :: (yt ++ ([] : List Char)) from by simp]
  rw [cleanCore_elem (xt.length + yt.length) (x :: xt) 0 y yt [] hy1 hy2 hys
    (Or.inl rfl)]
  simp [cleanCore]

theorem stringMk_append (a b : List Char) :
    String.mk a ++ String.mk b = String.mk (a ++ b) := rfl

theorem stringMk_length (l : List Char) : (String.mk l).length = l.length := rfl

/-- Defining equation of `goFilepathBase` on a non-empty literal. -/
theorem goFilepathBase_mk_cons (c : Char) (rest : List Char) :
    goFilepathBase (String.mk (c :: rest)) =
      (let stripped := (c :: rest).reverse.dropWhile (fun c => c == '/')
       if stripped.isEmpty then "/"
       else String.mk (stripped.takeWhile (fun c => c != '/')).reverse) := rfl

/-- `archiveName` on a path of the simple form `dir/stem.ext` (one
directory level shown; no separators inside the pieces, no dots in the
extension, neither the directory nor the stem starting with a dot)
inserts `-<timestamp>` between the stem and the extension. -/
theorem archiveNameAt_structure
    (dh : Char) (dt : List Char) (bh : Char) (bt : List Char)
    (eh : Char) (et : List Char) (nowL : List Char)
    (hdh1 : dh ≠ '/') (hdh2 : dh ≠ '.') (hdt : '/' ∉ dt)
    (hbh1 : bh ≠ '/') (hbh2 : bh ≠ '.') (hbt : '/' ∉ bt)
    (heh1 : eh ≠ '/') (heh2 : eh ≠ '.') (het1 : '/' ∉ et) (het2 : '.' ∉ et)
    (hnow : '/' ∉ nowL) :
    archiveNameAt
      (String.mk ((dh :: dt) ++ '/' :: ((bh :: bt) ++ '.' :: (eh :: et))))
      (String.mk nowL) =
    String.mk ((dh :: dt) ++ '/' ::
      ((bh :: bt) ++ '-' :: (nowL ++ '.' :: (eh :: et)))) := by
  have hrev : ((dh :: dt) ++ '/' :: ((bh :: bt) ++ '.' :: (eh :: et))).reverse
      = (eh :: et).reverse ++
        '.' :: ((bh :: bt).reverse ++ '/' :: (dh :: dt).reverse) := by
    simp [List.append_assoc]
  have hEmem : ∀ x ∈ (eh :: et).reverse, x ≠ '/' ∧ x ≠ '.' := by
    intro x hx
    have hx' : x ∈ eh :: et := List.mem_reverse.mp hx
    rcases List.mem_cons.mp hx' with rfl | hx2
    · exact ⟨heh1, heh2⟩
    · exact ⟨fun hh => het1 (hh ▸ hx2), fun hh => het2 (hh ▸ hx2)⟩
  have hall : ∀ x ∈ (eh :: et).reverse ++ '.' :: (bh :: bt).reverse,
      (x != '/') = true := by
    intro x hx
    simp only [List.mem_append, List.mem_cons] at hx
    have hxne : x ≠ '/' := by
      rcases hx with hE' | rfl | hB'
      · exact (hEmem x hE').1
      · intro hh
        exact absurd hh (by decide)
      · have hx2 : x ∈ bh :: bt := List.mem_reverse.mp hB'
        rcases List.mem_cons.mp hx2 with rfl | hx3
        · exact hbh1
        · exact fun hh => hbt (hh ▸ hx3)
    simp [hxne]
  have hext : goFilepathExt
      (String.mk ((dh :: dt) ++ '/' :: ((bh :: bt) ++ '.' :: (eh :: et)))) =
      String.mk ('.' :: (eh :: et)) := by
    unfold goFilepathExt
    rw [show (String.mk ((dh :: dt) ++ '/' ::
      ((bh :: bt) ++ '.' :: (eh :: et)))).data =
      (dh :: dt) ++ '/' :: ((bh :: bt) ++ '.' :: (eh :: et)) from rfl]
    rw [hrev, extScan_through _ _ _ hEmem]
    simp
  obtain ⟨c0, cs, hE⟩ : ∃ c0 cs, (eh :: et).reverse = c0 :: cs := by
    rcases h : (eh :: et).reverse with _ | ⟨a, l⟩
    · exact absurd (congrArg List.length h) (by simp)
    · exact ⟨a, l, rfl⟩
  have hc0mem : c0 ∈ eh :: et := by
    have hrv : c0 ∈ (eh :: et).reverse := by rw [hE]; simp
    exact List.mem_reverse.mp hrv
  have hc0ne : c0 ≠ '/' := (hEmem c0 (by rw [hE]; simp)).1
  have hbase : goFilepathBase
      (String.mk ((dh :: dt) ++ '/' :: ((bh :: bt) ++ '.' :: (eh :: et)))) =
      String.mk ((bh :: bt) ++ '.' :: (eh :: et)) := by
    rw [show String.mk ((dh :: dt) ++ '/' :: ((bh :: bt) ++ '.' ::
      (eh :: et))) =
      String.mk (dh :: (dt ++ '/' :: ((bh :: bt) ++ '.' :: (eh :: et))))
      from rfl]
    rw [goFilepathBase_mk_cons]
    simp only []
    rw [show (dh :: (dt ++ '/' :: ((bh :: bt) ++ '.' :: (eh :: et)))) =
      ((dh :: dt) ++ '/' :: ((bh :: bt) ++ '.' :: (eh :: et))) from rfl]
    rw [hrev, hE]
    simp only [List.cons_append]
    rw [List.dropWhile_cons_of_neg (by simp [hc0ne])]
    simp only [List.isEmpty_cons, Bool.false_eq_true, if_false]
    rw [show (c0 :: (cs ++ '.' :: ((bh :: bt).reverse ++ '/' ::
      (dh :: dt).reverse))) =
      ((c0 :: cs) ++ '.' :: (bh :: bt).reverse) ++ '/' :: (dh :: dt).reverse
      from by simp [List.append_assoc]]
    rw [← hE, takeWhile_append_all _ _ _ hall]
    rw [show List.takeWhile (fun c => c != '/') ('/' :: (dh :: dt).reverse) =
      [] from by simp [List.takeWhile_cons]]
    rw [show (((eh :: et).reverse ++ '.' :: (bh :: bt).reverse) ++
      ([] : List Char)).reverse = (bh :: bt) ++ '.' :: (eh :: et) from by
      simp [List.append_assoc]]
    rfl
  have hdir : goFilepathDir
      (String.mk ((dh :: dt) ++ '/' :: ((bh :: bt) ++ '.' :: (eh :: et)))) =
      String.mk (dh :: dt) := by
    unfold goFilepathDir
    rw [show (String.mk ((dh :: dt) ++ '/' ::
      ((bh :: bt) ++ '.' :: (eh :: et)))).data =
      (dh :: dt) ++ '/' :: ((bh :: bt) ++ '.' :: (eh :: et)) from rfl]
    rw [hrev]
    rw [show ((eh :: et).reverse ++ '.' :: ((bh :: bt).reverse ++ '/' ::
      (dh :: dt).reverse)) =
      ((eh :: et).reverse ++ '.' :: (bh :: bt).reverse) ++ '/' ::
        (dh :: dt).reverse from by simp [List.append_assoc]]
    rw [dropWhile_append_all _ _ _ hall]
    rw [List.dropWhile_cons_of_neg (by simp)]
    rw [show ('/' :: (dh :: dt).reverse).reverse = (dh :: dt) ++ ['/'] from by
      simp]
    exact goPathClean_trailing dh dt hdh1 hdh2 hdt
  unfold archiveNameAt
  rw [hdir, hbase, hext]
  dsimp only []
  rw [show (String.mk ((bh :: bt) ++ '.' :: (eh :: et))).length -
      (String.mk ('.' :: (eh :: et))).length = (bh :: bt).length from by
    simp only [stringMk_length, List.length_append, List.length_cons]
    omega]
  rw [String.take_eq]
  rw [show ((String.mk ((bh :: bt) ++ '.' :: (eh :: et))).data.take
      (bh :: bt).length : List Char) = bh :: bt from by
    rw [show (String.mk ((bh :: bt) ++ '.' :: (eh :: et))).data =
      (bh :: bt) ++ '.' :: (eh :: et) from rfl]
    exact List.take_left _ _]
  rw [show ("-" : String) = String.mk ['-'] from rfl]
  rw [show (String.mk (bh :: bt) ++ String.mk ['-'] ++ String.mk nowL ++
      String.mk ('.' :: (eh :: et))) =
      String.mk (bh :: (bt ++ '-' :: (nowL ++ '.' :: (eh :: et)))) from by
    rw [stringMk_append, stringMk_append, stringMk_append]
    exact congrArg String.mk (by simp [List.append_assoc])]
  have hne1 : String.mk (dh :: dt) ≠ "" := by
    intro hh
    exact absurd (congrArg String.data hh) (by simp)
  have hne2 : String.mk (bh :: (bt ++ '-' :: (nowL ++ '.' :: (eh :: et)))) ≠
      "" := by
    intro hh
    exact absurd (congrArg String.data hh) (by simp)
  unfold goPathJoin
  rw [if_neg (by simp [hne1]), if_neg hne1, if_neg hne2]
  rw [show ("/" : String) = String.mk ['/'] from rfl]
  rw [stringMk_append, stringMk_append]
  rw [show ((dh :: dt) ++ ['/'] ++ (bh :: (bt ++ '-' :: (nowL ++ '.' ::
      (eh :: et))))) = (dh :: dt) ++ '/' :: (bh ::
      (bt ++ '-' :: (nowL ++ '.' :: (eh :: et)))) from by
    simp [List.append_assoc]]
  have hyall : '/' ∉ bt ++ '-' :: (nowL ++ '.' :: (eh :: et)) := by
    intro hm
    simp only [List.mem_append, List.mem_cons] at hm
    rcases hm with h1 | h2 | h3 | h4 | h5
    · exact hbt h1
    · exact absurd h2.symm (by decide)
    · exact hnow h3
    · exact absurd h4.symm (by decide)
    · rcases List.mem_cons.mp (by simpa using h5) with h6 | h7
      · exact heh1 h6.symm
      · exact het1 h7
  exact goPathClean_two dh dt bh (bt ++ '-' :: (nowL ++ '.' :: (eh :: et)))
    hdh1 hdh2 hdt hbh1 hbh2 hyall

/-- The in-progress marker after one compression task, used by C8: with
the streaming successful, the `.processing` marker disappears exactly when
the rename succeeds. -/
theorem compressRun_marker (fs : GoFS) (fn : String) (env : CompressEnv)
    (ht : tempName fn ∉ fs) (hc : compressedName fn ∉ fs)
    (h1 : env.openErr = none) (h2 : env.tempOpenErr = none)
    (h3 : env.copyErr = none) :
    (env.renameErr = none →
      tempName fn ∉ compressRun fs fn env ∧
      compressedName fn ∈ compressRun fs fn env) ∧
    (∀ e, env.renameErr = some e →
      tempName fn ∈ compressRun fs fn env ∧
      compressedName fn ∉ compressRun fs fn env) := by
  have hufn : tempName fn ≠ fn := tempName_ne fn
  have hcfn : compressedName fn ≠ fn := compressedName_ne fn
  have htc : tempName fn ≠ compressedName fn := tempName_ne_compressedName fn
  constructor
  · intro h4
    rcases h5 : env.removeOrigErr with _ | e5 <;>
      simp only [compressRun, fsCreate, fsRemove, fsRename, h1, h2, h3, h4,
        h5, Option.isSome_none, Option.isSome_some, if_neg ht, if_false,
        Bool.false_eq_true, ite_false] <;>
      simp [ht, hc, htc, List.erase_cons, hufn, hcfn]
  · intro e h4
    rcases h5 : env.removeOrigErr with _ | e5 <;>
      simp only [compressRun, fsCreate, fsRemove, fsRename, h1, h2, h3, h4,
        h5, Option.isSome_none, Option.isSome_some, if_neg ht, if_false,
        Bool.false_eq_true, ite_false] <;>
      simp [ht, hc, htc.symm, List.erase_cons, hufn, hcfn]

/-- Claim C8: (1) the archive name inserts a timestamp between the base
name and its extension for paths of the simple form `dir/stem.ext`;
(2) the timestamp layout is fixed-width (25 characters, five of them
sub-second digits); (3) it is lexicographically sortable — byte-wise
comparison of two formatted timestamps agrees with chronological order;
(4) the compressed artifact appends the fixed `gz` extension to the
archive name and the in-progress output additionally appends the
`processing` marker; (5) with streaming successful the marker is removed
exactly on a successful rename: rename succeeding leaves only the final
compressed name, rename failing leaves only the marked temporary. -/
theorem claim_C8_archive_naming :
    (∀ (dh : Char) (dt : List Char) (bh : Char) (bt : List Char)
      (eh : Char) (et : List Char) (nowL : List Char),
      dh ≠ '/' → dh ≠ '.' → '/' ∉ dt →
      bh ≠ '/' → bh ≠ '.' → '/' ∉ bt →
      eh ≠ '/' → eh ≠ '.' → '/' ∉ et → '.' ∉ et →
      '/' ∉ nowL →
      archiveNameAt
        (String.mk ((dh :: dt) ++ '/' :: ((bh :: bt) ++ '.' :: (eh :: et))))
        (String.mk nowL) =
      String.mk ((dh :: dt) ++ '/' ::
        ((bh :: bt) ++ '-' :: (nowL ++ '.' :: (eh :: et))))) ∧
    (∀ t : GoTime, (goFormatChars t).length = 25) ∧
    (∀ t1 t2 : GoTime, t1.wf → t2.wf →
      lexLt (goFormatChars t1) (goFormatChars t2) = tsLtB t1 t2) ∧
    (∀ fn, compressedName fn = fn ++ "." ++ compressedExtension ∧
      tempName fn = compressedName fn ++ "." ++ processingExtenstion) ∧
    (∀ (fs : GoFS) (fn : String) (env : CompressEnv),
      tempName fn ∉ fs → compressedName fn ∉ fs →
      env.openErr = none → env.tempOpenErr = none → env.copyErr = none →
      ((env.renameErr = none →
        tempName fn ∉ compressRun fs fn env ∧
        compressedName fn ∈ compressRun fs fn env) ∧
      (∀ e, env.renameErr = some e →
        tempName fn ∈ compressRun fs fn env ∧
        compressedName fn ∉ compressRun fs fn env))) :=
  ⟨fun dh dt bh bt eh et nowL h1 h2 h3 h4 h5 h6 h7 h8 h9 h10 h11 =>
    archiveNameAt_structure dh dt bh bt eh et nowL h1 h2 h3 h4 h5 h6 h7 h8
      h9 h10 h11,
   goFormatChars_length,
   goFormat_lexLt,
   fun _ => ⟨rfl, rfl⟩,
   compressRun_marker⟩

/-- A concrete instant, 2024-05-06 07:08:09.00123. -/
def witTime8a : GoTime :=
  { year := 2024, month := 5, day := 6, hour := 7, minute := 8, second := 9,
    frac := 123 }

/-- A slightly later concrete instant the same second. -/
def witTime8b : GoTime :=
  { year := 2024, month := 5, day := 6, hour := 7, minute := 8, second := 9,
    frac := 124 }

/-- Fully successful compression outcomes for the C8 witness. -/
def witEnv8 : CompressEnv :=
  { openErr := none, tempOpenErr := none, copyErr := none,
    renameErr := none, removeTempErr := none, removeOrigErr := none }

/-- Witness for C8 at concrete values: the archive name of
`log/app.txt`, the width and sortedness of two concrete timestamps, and
the marker removal of one successful task. -/
theorem claim_C8_archive_naming_witness :
    archiveNameAt
      (String.mk (('l' :: ['o', 'g']) ++ '/' ::
        (('a' :: ['p', 'p']) ++ '.' :: ('t' :: ['x', 't']))))
      (String.mk (goFormatChars witTime8a)) =
    String.mk (('l' :: ['o', 'g']) ++ '/' ::
      (('a' :: ['p', 'p']) ++ '-' ::
        (goFormatChars witTime8a ++ '.' :: ('t' :: ['x', 't'])))) ∧
    (goFormatChars witTime8a).length = 25 ∧
    lexLt (goFormatChars witTime8a) (goFormatChars witTime8b) =
      tsLtB witTime8a witTime8b ∧
    tempName "d/x.log" ∉ compressRun ["d/x.log"] "d/x.log" witEnv8 ∧
    compressedName "d/x.log" ∈ compressRun ["d/x.log"] "d/x.log" witEnv8 := by
  refine ⟨?_, claim_C8_archive_naming.2.1 witTime8a,
    claim_C8_archive_naming.2.2.1 witTime8a witTime8b (by decide) (by decide),
    ?_, ?_⟩
  · exact claim_C8_archive_naming.1 'l' ['o', 'g'] 'a' ['p', 'p'] 't'
      ['x', 't'] (goFormatChars witTime8a) (by decide) (by decide)
      (by decide) (by decide) (by decide) (by decide) (by decide) (by decide)
      (by decide) (by decide) (by decide)
  · exact ((claim_C8_archive_naming.2.2.2.2 ["d/x.log"] "d/x.log" witEnv8
      (by decide) (by decide) rfl rfl rfl).1 rfl).1
  · exact ((claim_C8_archive_naming.2.2.2.2 ["d/x.log"] "d/x.log" witEnv8
      (by decide) (by decide) rfl rfl rfl).1 rfl).2
